import Mathlib

/-!
# Verification of the DICOM viewer windowing and conversion engine

A shallow embedding of the window/level and image-conversion core of the
`dicom-viewer-app` repository, together with theorems settling the spec
claims about it.

Conventions of the embedding:

* C++ `double` window/level arithmetic is modelled by exact rationals `ℚ`.
  All concrete inputs appearing in the theorems below are exactly
  representable in IEEE double and their intermediate computations in the
  code are exact, so the rational model agrees with the `double` code on
  them.
* `static_cast<uint8_t>` of a `double` truncates toward zero; in every
  reachable case the operand lies in `[0, 255)`, where truncation toward
  zero is `Int.floor`, modelled by `(Int.floor _).toNat`.
* `std::vector<uint8_t>` pixel buffers are `List ℕ` of byte values;
  `QImage` results are `Option QImageData`, `none` standing for the null
  `QImage()` returned on failure. `QImageData.pixels` is the concatenation
  of the image rows (the bytes the code writes through `scanLine`).
-/

namespace DicomViewer

/-- `enum class EPhotometricInterpretation` from `include/DicomViewer/Types.h`. -/
inductive EPhotometricInterpretation where
  | Monochrome1
  | Monochrome2
  | Rgb
  | PaletteColor
  | Unknown
  deriving DecidableEq, Repr

/-- `enum class EPaletteType` from `include/DicomViewer/Types.h`. -/
inductive EPaletteType where
  | Grayscale
  | Inverted
  | Hot
  | Cool
  | Rainbow
  | Bone
  | Copper
  | Ocean
  deriving DecidableEq, Repr

/-- `struct SWindowLevel { double center = 0.0; double width = 1.0; }`. -/
structure SWindowLevel where
  center : ℚ := 0
  width : ℚ := 1
  deriving DecidableEq, Repr

/-- `struct SImageDimensions` from `include/DicomViewer/Types.h`. -/
structure SImageDimensions where
  width : ℕ := 0
  height : ℕ := 0
  bitsAllocated : ℕ := 0
  bitsStored : ℕ := 0
  highBit : ℕ := 0
  samplesPerPixel : ℕ := 1
  isSigned : Bool := false
  deriving DecidableEq, Repr

/-- `constexpr int kMinWindowWidth = 1;` (used after a cast to `double`). -/
def kMinWindowWidth : ℚ := 1

end DicomViewer

/-- `CDicomMetadata`: an associative tag table; its internals are irrelevant
to the claims, only identity of the stored object matters. -/
structure CDicomMetadata where
  tags : List (String × String) := []
  deriving DecidableEq, Repr

/-- `CDicomImage`: the DICOM image container (`src/core/CDicomImage.h`),
with the member fields and their in-class initial values. -/
structure CDicomImage where
  pixelData : List ℕ := []
  dimensions : DicomViewer.SImageDimensions := {}
  photometricInterpretation : DicomViewer.EPhotometricInterpretation :=
    DicomViewer.EPhotometricInterpretation.Unknown
  windowLevel : DicomViewer.SWindowLevel := {}
  defaultWindowLevel : DicomViewer.SWindowLevel := {}
  rescaleSlope : ℚ := 1
  rescaleIntercept : ℚ := 0
  bitsPerSample : ℕ := 8
  pixelSigned : Bool := false
  metadata : Option CDicomMetadata := none
  deriving DecidableEq, Repr

namespace CDicomImage

/-- `CDicomImage::hasPixelData`. -/
def hasPixelData (img : CDicomImage) : Bool :=
  !img.pixelData.isEmpty

/-- `CDicomImage::isValid`. -/
def isValid (img : CDicomImage) : Bool :=
  img.hasPixelData &&
    decide (0 < img.dimensions.width) &&
    decide (0 < img.dimensions.height) &&
    decide (img.photometricInterpretation ≠
      DicomViewer.EPhotometricInterpretation.Unknown)

/-- `CDicomImage::setWindowLevel`: stores the argument verbatim. -/
def setWindowLevel (img : CDicomImage) (wl : DicomViewer.SWindowLevel) :
    CDicomImage :=
  { img with windowLevel := wl }

/-- `CDicomImage::resetWindowLevel`: `m_windowLevel = m_defaultWindowLevel`. -/
def resetWindowLevel (img : CDicomImage) : CDicomImage :=
  { img with windowLevel := img.defaultWindowLevel }

/-- `CDicomImage::setDefaultWindowLevel`: sets both the default and the
current window/level. -/
def setDefaultWindowLevel (img : CDicomImage) (wl : DicomViewer.SWindowLevel) :
    CDicomImage :=
  { img with defaultWindowLevel := wl, windowLevel := wl }

end CDicomImage

/-- The body of the LUT loop in `CImageConverter::buildWindowLevelLut`
(lines 298–322) for one raw value, in the `width > 0` case: clamp to the
window, scale to `[0,255]`, truncate, then invert when requested. -/
def lutEntry (wl : DicomViewer.SWindowLevel) (invertForMonochrome1 : Bool)
    (rawValue : ℚ) : ℕ :=
  let lowerBound := wl.center - wl.width / 2
  let upperBound := wl.center + wl.width / 2
  let scale := 255 / wl.width
  let value : ℕ :=
    if rawValue ≤ lowerBound then 0
    else if upperBound ≤ rawValue then 255
    else (Int.floor ((rawValue - lowerBound) * scale)).toNat
  if invertForMonochrome1 then 255 - value else value

/-- `CImageConverter::buildWindowLevelLut` (lines 274–325): swap a reversed
domain, return an all-zero table when `width ≤ 0` (before the division by
`width` is computed), otherwise fill the table with `lutEntry` at
`minValue + i`. -/
def buildWindowLevelLut (wl : DicomViewer.SWindowLevel)
    (minValue maxValue : ℤ) (invertForMonochrome1 : Bool) : List ℕ :=
  let minValue' := if maxValue < minValue then maxValue else minValue
  let maxValue' := if maxValue < minValue then minValue else maxValue
  let range : ℕ := (maxValue' - minValue' + 1).toNat
  if wl.width ≤ 0 then
    List.replicate range 0
  else
    (List.range range).map
      (fun (i : ℕ) => lutEntry wl invertForMonochrome1 ((minValue' : ℚ) + (i : ℚ)))

/-- The converter's palette state: `CColorPalette` holds the selected
`EPaletteType` and the gray-to-RGB generator `mapRgb`. The generator's
numeric contents are irrelevant to every claim below, so it is carried as
an unconstrained `ℕ → ℕ × ℕ × ℕ`, which makes theorems quantifying over it
hold for the real generators in particular. -/
structure CColorPalette where
  type : DicomViewer.EPaletteType := DicomViewer.EPaletteType.Grayscale
  mapRgb : ℕ → ℕ × ℕ × ℕ := fun g => (g, g, g)

/-- `QImage::Format_Grayscale8` / `QImage::Format_RGB888`. -/
inductive QImageFormat where
  | Grayscale8
  | RGB888
  deriving DecidableEq, Repr

/-- A non-null `QImage` produced by the converter: dimensions, pixel
format, and the row bytes written through `scanLine`, concatenated in row
order. -/
structure QImageData where
  width : ℕ
  height : ℕ
  format : QImageFormat
  pixels : List ℕ
  deriving DecidableEq, Repr

/-- The per-image LUT domain minimum chosen by `CImageConverter::convertMonochrome`
(lines 122–136): 8-bit data uses `[0,255]`, 16-bit unsigned `[0,65535]`,
16-bit signed `[-32768,32767]`. -/
def monoMinValue (is16bit isSigned : Bool) : ℤ :=
  if is16bit then (if isSigned then -32768 else 0) else 0

/-- The per-image LUT domain maximum chosen by `CImageConverter::convertMonochrome`. -/
def monoMaxValue (is16bit isSigned : Bool) : ℤ :=
  if is16bit then (if isSigned then 32767 else 65535) else 255

/-- Per-pixel sample extraction of `convertMonochrome`: 8-bit reads the
byte, 16-bit reinterprets byte pairs as host-endian (little-endian)
`uint16_t`, further reinterpreted as `int16_t` when the data is signed. -/
def sampleAt (pixelData : List ℕ) (is16bit isSigned : Bool) (index : ℕ) : ℤ :=
  if is16bit then
    let u : ℕ := pixelData.getD (2 * index) 0 + 256 * pixelData.getD (2 * index + 1) 0
    if isSigned then
      (if u < 32768 then (u : ℤ) else (u : ℤ) - 65536)
    else (u : ℤ)
  else (pixelData.getD index 0 : ℤ)

/-- The `expectedSize` computed by `convertMonochrome` (lines 108–111):
`pixelCount * bytesPerPixel` with `bytesPerPixel = 2` for 16-bit data and
`1` otherwise. -/
def monoExpectedSize (image : CDicomImage) : ℕ :=
  image.dimensions.width * image.dimensions.height *
    (if image.bitsPerSample == 16 then 2 else 1)

/-- The `expectedSize` computed by `convertRgb` (line 256): three bytes per
pixel. -/
def rgbExpectedSize (image : CDicomImage) : ℕ :=
  image.dimensions.width * image.dimensions.height * 3

/-- `CImageConverter::convertMonochrome` (lines 96–233): size checks, LUT
construction with `invert = Monochrome1`, then either a `Grayscale8` buffer
of LUT outputs or an `RGB888` buffer of palette-mapped LUT outputs. The
row/column double loop at pixel index `y*width + x` is flattened into one
pass over `[0, width*height)`. -/
def convertMonochrome (palette : CColorPalette) (image : CDicomImage)
    (wl : DicomViewer.SWindowLevel) : Option QImageData :=
  if image.pixelData.isEmpty then none
  else if image.pixelData.length < monoExpectedSize image then none
  else
    let dims := image.dimensions
    let is16bit : Bool := image.bitsPerSample == 16
    let useColorPalette : Bool :=
      palette.type != DicomViewer.EPaletteType.Grayscale
    let isMonochrome1 : Bool :=
      image.photometricInterpretation ==
        DicomViewer.EPhotometricInterpretation.Monochrome1
    let isSigned := image.pixelSigned
    let minValue := monoMinValue is16bit isSigned
    let maxValue := monoMaxValue is16bit isSigned
    let lut := buildWindowLevelLut wl minValue maxValue isMonochrome1
    let lutOffset : ℤ := -minValue
    let gray : ℕ → ℕ := fun index =>
      lut.getD (sampleAt image.pixelData is16bit isSigned index + lutOffset).toNat 0
    if !useColorPalette then
      some ⟨dims.width, dims.height, QImageFormat.Grayscale8,
        (List.range (dims.width * dims.height)).map gray⟩
    else
      some ⟨dims.width, dims.height, QImageFormat.RGB888,
        (List.range (dims.width * dims.height)).flatMap (fun index =>
          let rgb := palette.mapRgb (gray index)
          [rgb.1, rgb.2.1, rgb.2.2])⟩

/-- `CImageConverter::convertRgb` (lines 240–272): size check against
`width*height*3` bytes, then a row-by-row `memcpy` of the source bytes. -/
def convertRgb (image : CDicomImage) : Option QImageData :=
  if image.pixelData.isEmpty then none
  else if image.pixelData.length < rgbExpectedSize image then none
  else
    let dims := image.dimensions
    let rowBytes := dims.width * 3
    some ⟨dims.width, dims.height, QImageFormat.RGB888,
      (List.range dims.height).flatMap (fun y =>
        (image.pixelData.drop (y * rowBytes)).take rowBytes)⟩

/-- `CImageConverter::toQImage(dicomImage, windowLevel)` (lines 62–84):
null on invalid images, dispatch on photometric interpretation, null in the
`default` branch (`PaletteColor`, `Unknown`). -/
def toQImage (palette : CColorPalette) (image : CDicomImage)
    (wl : DicomViewer.SWindowLevel) : Option QImageData :=
  if !image.isValid then none
  else
    match image.photometricInterpretation with
    | DicomViewer.EPhotometricInterpretation.Monochrome1 =>
        convertMonochrome palette image wl
    | DicomViewer.EPhotometricInterpretation.Monochrome2 =>
        convertMonochrome palette image wl
    | DicomViewer.EPhotometricInterpretation.Rgb => convertRgb image
    | _ => none

/-- The byte length `toQImage`'s conversion routines require of
`pixelData` before producing a non-null image: `width*height*3` for RGB
sources, `width*height*bytesPerSample` for monochrome ones. -/
def requiredBytes (image : CDicomImage) : ℕ :=
  match image.photometricInterpretation with
  | DicomViewer.EPhotometricInterpretation.Rgb => rgbExpectedSize image
  | _ => monoExpectedSize image

/-- `constexpr double kSensitivityWidth = 1.0;` (`CImageViewer.cpp:58`). -/
def kSensitivityWidth : ℚ := 1

/-- `constexpr double kSensitivityCenter = 1.0;` (`CImageViewer.cpp:59`). -/
def kSensitivityCenter : ℚ := 1

/-- The width-slider handler in `CImageViewer::setupWindowLevelPanel`
(lines 269–275): clamps the slider value to `kMinWindowWidth` before
storing it through `setWindowLevel`. -/
def widthSliderChanged (image : CDicomImage) (value : ℤ) : CDicomImage :=
  let wl := image.windowLevel
  image.setWindowLevel
    { center := wl.center, width := max DicomViewer.kMinWindowWidth (value : ℚ) }

/-- The window/level branch of `CImageViewer::mouseMoveEvent`
(lines 1241–1252): width grows by the horizontal delta and is clamped to
`kMinWindowWidth`; center moves by the negated vertical delta. -/
def mouseDragWindowLevel (image : CDicomImage) (dx dy : ℤ) : CDicomImage :=
  let wl := image.windowLevel
  let width := max DicomViewer.kMinWindowWidth (wl.width + dx * kSensitivityWidth)
  let center := wl.center - dy * kSensitivityCenter
  image.setWindowLevel { center := center, width := width }

/-- The window/level mapping exactly as the spec (§4.1) words it, for the
`width > 0` case — written from the spec, independently of the code, for
the refinement claim: `lower = center - width/2`, `upper = center + width/2`,
`scale = 255 / width`; `v ≤ lower → 0`; `v ≥ upper → 255`; else
`round_down((v-lower)*scale)` cast to `u8` (truncating, not
rounding-to-nearest); if `invert`, the result is replaced by `255 - result`
after the clamping, never re-clamped. -/
def specWindowLevelMap (center width : ℚ) (invert : Bool) (v : ℚ) : ℕ :=
  let lower := center - width / 2
  let upper := center + width / 2
  let scale := 255 / width
  let result : ℕ :=
    if v ≤ lower then 0
    else if v ≥ upper then 255
    else (Int.floor ((v - lower) * scale)).toNat
  if invert then 255 - result else result

/-- A concrete 2×1 8-bit Monochrome1 image holding the raw samples 0 and
255, used to exercise the Monochrome1 scenario. -/
def mono1Sample : CDicomImage :=
  { pixelData := [0, 255],
    dimensions := { width := 2, height := 1, bitsAllocated := 8, bitsStored := 8,
                    highBit := 7 },
    photometricInterpretation := DicomViewer.EPhotometricInterpretation.Monochrome1 }

/-- A concrete 1×2 RGB image whose buffer holds one spare byte beyond the
required `width*height*3`, used to exercise the RGB verbatim-copy path. -/
def rgbSample : CDicomImage :=
  { pixelData := [10, 20, 30, 40, 50, 60, 70],
    dimensions := { width := 1, height := 2, bitsAllocated := 8, bitsStored := 8,
                    highBit := 7, samplesPerPixel := 3 },
    photometricInterpretation := DicomViewer.EPhotometricInterpretation.Rgb }

theorem buildWindowLevelLut_length (wl : DicomViewer.SWindowLevel)
    (minValue maxValue : ℤ) (inv : Bool) (h : minValue ≤ maxValue) :
    (buildWindowLevelLut wl minValue maxValue inv).length =
      (maxValue - minValue + 1).toNat := by
  unfold buildWindowLevelLut
  have hnot : ¬ maxValue < minValue := not_lt.mpr h
  by_cases hw : wl.width ≤ 0 <;>
    simp [hnot, hw]

theorem buildWindowLevelLut_getD (wl : DicomViewer.SWindowLevel)
    (minValue maxValue : ℤ) (inv : Bool) (h : minValue ≤ maxValue)
    (hw : 0 < wl.width) (i : ℕ) (hi : i < (maxValue - minValue + 1).toNat) :
    (buildWindowLevelLut wl minValue maxValue inv).getD i 0 =
      lutEntry wl inv ((minValue : ℚ) + i) := by
  unfold buildWindowLevelLut
  have hnot : ¬ maxValue < minValue := not_lt.mpr h
  have hw' : ¬ wl.width ≤ 0 := not_le.mpr hw
  simp only [hnot, if_false, hw', List.getD_eq_getElem?_getD]
  rw [List.getElem?_map]
  rw [List.getElem?_range (by simpa [hnot] using hi)]
  rfl

theorem lutEntry_true (wl : DicomViewer.SWindowLevel) (v : ℚ) :
    lutEntry wl true v = 255 - lutEntry wl false v := by
  unfold lutEntry
  simp

theorem lutEntry_false_le (wl : DicomViewer.SWindowLevel) (hw : 0 < wl.width)
    (v : ℚ) : lutEntry wl false v ≤ 255 := by
  unfold lutEntry
  simp only [if_false, Bool.false_eq_true]
  by_cases h1 : v ≤ wl.center - wl.width / 2
  · simp [h1]
  · by_cases h2 : wl.center + wl.width / 2 ≤ v
    · simp [h1, h2]
    · simp only [h1, h2, if_false]
      rw [Int.toNat_le]
      have hlt : (v - (wl.center - wl.width / 2)) * (255 / wl.width) < 255 := by
        have hv : v - (wl.center - wl.width / 2) < wl.width := by
          have := not_le.mp h2
          linarith
        have := mul_lt_mul_of_pos_right hv (div_pos (by norm_num : (0:ℚ) < 255) hw)
        calc (v - (wl.center - wl.width / 2)) * (255 / wl.width)
            < wl.width * (255 / wl.width) := this
          _ = 255 := by field_simp
      exact le_of_lt (by exact_mod_cast Int.floor_lt.mpr (by exact_mod_cast hlt))

theorem lutEntry_false_mono (wl : DicomViewer.SWindowLevel)
    (hw : 0 < wl.width) (v₁ v₂ : ℚ) (h : v₁ ≤ v₂) :
    lutEntry wl false v₁ ≤ lutEntry wl false v₂ := by
  unfold lutEntry
  simp only [if_false, Bool.false_eq_true]
  by_cases h1 : v₁ ≤ wl.center - wl.width / 2
  · simp [h1]
  · have h2 : ¬ v₂ ≤ wl.center - wl.width / 2 := fun hc => h1 (le_trans h hc)
    by_cases h3 : wl.center + wl.width / 2 ≤ v₁
    · have h4 : wl.center + wl.width / 2 ≤ v₂ := le_trans h3 h
      simp [h1, h2, h3, h4]
    · by_cases h5 : wl.center + wl.width / 2 ≤ v₂
      · simp only [h1, h2, h3, h5, if_false, if_true]
        have := lutEntry_false_le wl hw v₁
        unfold lutEntry at this
        simpa [h1, h3] using this
      · simp only [h1, h2, h3, h5, if_false]
        refine Int.toNat_le_toNat (Int.floor_le_floor ?_)
        have hs : (0 : ℚ) ≤ 255 / wl.width := le_of_lt (div_pos (by norm_num) hw)
        have hsub : v₁ - (wl.center - wl.width / 2) ≤ v₂ - (wl.center - wl.width / 2) := by
          linarith
        exact mul_le_mul_of_nonneg_right hsub hs

theorem cast_add_toNat_sub (minValue v : ℤ) (h : minValue ≤ v) :
    (minValue : ℚ) + ((v - minValue).toNat : ℚ) = (v : ℚ) := by
  have ht : ((v - minValue).toNat : ℤ) = v - minValue := Int.toNat_of_nonneg (by omega)
  have : ((v - minValue).toNat : ℚ) = ((v : ℚ) - (minValue : ℚ)) := by
    rw [← Int.cast_natCast (R := ℚ), ht, Int.cast_sub]
  rw [this]
  ring

/-- **C1.** For `width > 0` and any domain `[minValue, maxValue]`, every
entry of the table built by `buildWindowLevelLut` equals the spec's
window/level formula at the corresponding raw value: clamp at
`lower = center - width/2` / `upper = center + width/2` to `0`/`255`,
otherwise truncate `(v - lower) * (255/width)` toward zero, and when
`invert` is set replace the result by `255 -` it after the clamping. -/
theorem buildWindowLevelLut_matches_spec (wl : DicomViewer.SWindowLevel)
    (minValue maxValue : ℤ) (inv : Bool) (h : minValue ≤ maxValue)
    (hw : 0 < wl.width) (i : ℕ) (hi : i < (maxValue - minValue + 1).toNat) :
    (buildWindowLevelLut wl minValue maxValue inv).getD i 0 =
      specWindowLevelMap wl.center wl.width inv ((minValue : ℚ) + i) := by
  rw [buildWindowLevelLut_getD wl minValue maxValue inv h hw i hi]
  unfold lutEntry specWindowLevelMap
  simp [ge_iff_le]

/-- Witness for C1 at the 8-bit domain with `center = 128`, `width = 256`. -/
theorem buildWindowLevelLut_matches_spec_witness :
    (buildWindowLevelLut ⟨128, 256⟩ 0 255 true).getD 64 0 =
      specWindowLevelMap 128 256 true (((0 : ℤ) : ℚ) + (64 : ℕ)) :=
  buildWindowLevelLut_matches_spec ⟨128, 256⟩ 0 255 true (by decide)
    (by norm_num) 64 (by decide)

/-- **C4.** For `width > 0`, the LUT is monotonically non-decreasing in the
raw value when `invert = false` and non-increasing when `invert = true`:
for raw values `v₁ ≤ v₂` in the domain, the entry at `v₁` is `≤` (resp. `≥`)
the entry at `v₂`. -/
theorem buildWindowLevelLut_monotone (wl : DicomViewer.SWindowLevel)
    (minValue maxValue : ℤ) (h : minValue ≤ maxValue) (hw : 0 < wl.width)
    (v₁ v₂ : ℤ) (h₁ : minValue ≤ v₁) (h₂ : v₁ ≤ v₂) (h₃ : v₂ ≤ maxValue) :
    (buildWindowLevelLut wl minValue maxValue false).getD (v₁ - minValue).toNat 0 ≤
      (buildWindowLevelLut wl minValue maxValue false).getD (v₂ - minValue).toNat 0 ∧
    (buildWindowLevelLut wl minValue maxValue true).getD (v₂ - minValue).toNat 0 ≤
      (buildWindowLevelLut wl minValue maxValue true).getD (v₁ - minValue).toNat 0 := by
  have e₁ := buildWindowLevelLut_getD wl minValue maxValue false h hw
    (v₁ - minValue).toNat (by omega)
  have e₂ := buildWindowLevelLut_getD wl minValue maxValue false h hw
    (v₂ - minValue).toNat (by omega)
  have e₃ := buildWindowLevelLut_getD wl minValue maxValue true h hw
    (v₁ - minValue).toNat (by omega)
  have e₄ := buildWindowLevelLut_getD wl minValue maxValue true h hw
    (v₂ - minValue).toNat (by omega)
  rw [cast_add_toNat_sub minValue v₁ h₁] at e₁ e₃
  rw [cast_add_toNat_sub minValue v₂ (le_trans h₁ h₂)] at e₂ e₄
  have hmono := lutEntry_false_mono wl hw (v₁ : ℚ) (v₂ : ℚ) (by exact_mod_cast h₂)
  refine ⟨by rw [e₁, e₂]; exact hmono, ?_⟩
  rw [e₃, e₄, lutEntry_true, lutEntry_true]
  exact Nat.sub_le_sub_left hmono 255

/-- Witness for C4 on the 16-bit signed domain. -/
theorem buildWindowLevelLut_monotone_witness :
    (buildWindowLevelLut ⟨40, 80⟩ (-32768) 32767 false).getD
        ((-7 : ℤ) - (-32768)).toNat 0 ≤
      (buildWindowLevelLut ⟨40, 80⟩ (-32768) 32767 false).getD
        ((60 : ℤ) - (-32768)).toNat 0 ∧
    (buildWindowLevelLut ⟨40, 80⟩ (-32768) 32767 true).getD
        ((60 : ℤ) - (-32768)).toNat 0 ≤
      (buildWindowLevelLut ⟨40, 80⟩ (-32768) 32767 true).getD
        ((-7 : ℤ) - (-32768)).toNat 0 :=
  buildWindowLevelLut_monotone ⟨40, 80⟩ (-32768) 32767 (by decide) (by norm_num)
    (-7) 60 (by decide) (by decide) (by decide)

/-- **C5.** When `width ≤ 0`, `buildWindowLevelLut` returns the all-zero
table of the domain's size — the early return fires before `scale = 255/width`
is ever computed, for the inverted (Monochrome1) case as well, so every
entry is `0` and no division by `width` is reached. -/
theorem buildWindowLevelLut_blank (wl : DicomViewer.SWindowLevel)
    (minValue maxValue : ℤ) (inv : Bool) (hw : wl.width ≤ 0)
    (h : minValue ≤ maxValue) :
    buildWindowLevelLut wl minValue maxValue inv =
      List.replicate (maxValue - minValue + 1).toNat 0 := by
  unfold buildWindowLevelLut
  have hnot : ¬ maxValue < minValue := not_lt.mpr h
  simp [hnot, hw]

/-- Witness for C5: a zero-width window over the 8-bit domain, inverted. -/
theorem buildWindowLevelLut_blank_witness :
    buildWindowLevelLut ⟨128, 0⟩ 0 255 true = List.replicate 256 0 :=
  buildWindowLevelLut_blank ⟨128, 0⟩ 0 255 true (by norm_num) (by decide)

/-- **C8 counterexample.** `CDicomImage::setWindowLevel` stores its argument
verbatim: setting a window width of `1/2` through it leaves the stored width
at `1/2 < 1.0`, so not every mutator clamps the width to `≥ 1.0`. -/
theorem setWindowLevel_does_not_clamp :
    (CDicomImage.setWindowLevel {} ⟨0, 1/2⟩).windowLevel.width < 1 := by
  norm_num [CDicomImage.setWindowLevel]

/-- **C8 (amended).** `CDicomImage::setWindowLevel` stores the given
window/level verbatim; the clamping to `kMinWindowWidth = 1.0` happens in
the UI mutators — the width-slider handler and the mouse-drag handler —
before they call `setWindowLevel`, so every width stored through those UI
paths is `≥ 1.0`. -/
theorem ui_mutators_clamp_width (img : CDicomImage)
    (wl : DicomViewer.SWindowLevel) (value dx dy : ℤ) :
    (img.setWindowLevel wl).windowLevel = wl ∧
    DicomViewer.kMinWindowWidth ≤ (widthSliderChanged img value).windowLevel.width ∧
    DicomViewer.kMinWindowWidth ≤ (mouseDragWindowLevel img dx dy).windowLevel.width :=
  ⟨rfl, le_max_left _ _, le_max_left _ _⟩

/-- **C9.** For each of the three monochrome domains chosen by
`convertMonochrome` (8-bit, 16-bit unsigned, 16-bit signed), every sample
value inside the declared domain yields a LUT index `pixelValue + lutOffset`
(with `lutOffset = -minValue`) within `[0, maxValue - minValue]`, strictly
below the length of the table built by `buildWindowLevelLut` — every lookup
is in bounds. -/
theorem lut_lookup_in_bounds (wl : DicomViewer.SWindowLevel)
    (is16bit isSigned inv : Bool) (v : ℤ)
    (h₁ : monoMinValue is16bit isSigned ≤ v)
    (h₂ : v ≤ monoMaxValue is16bit isSigned) :
    0 ≤ v + (- monoMinValue is16bit isSigned) ∧
    v + (- monoMinValue is16bit isSigned) ≤
      monoMaxValue is16bit isSigned - monoMinValue is16bit isSigned ∧
    (v + (- monoMinValue is16bit isSigned)).toNat <
      (buildWindowLevelLut wl (monoMinValue is16bit isSigned)
        (monoMaxValue is16bit isSigned) inv).length := by
  have hmn : monoMinValue is16bit isSigned ≤ monoMaxValue is16bit isSigned := by
    cases is16bit <;> cases isSigned <;> decide
  rw [buildWindowLevelLut_length wl _ _ inv hmn]
  refine ⟨by omega, by omega, by omega⟩

/-- Witness for C9: a signed 16-bit sample of value `-5`. -/
theorem lut_lookup_in_bounds_witness :
    0 ≤ (-5 : ℤ) + (- monoMinValue true true) ∧
    (-5 : ℤ) + (- monoMinValue true true) ≤
      monoMaxValue true true - monoMinValue true true ∧
    ((-5 : ℤ) + (- monoMinValue true true)).toNat <
      (buildWindowLevelLut ⟨0, 1⟩ (monoMinValue true true)
        (monoMaxValue true true) false).length :=
  lut_lookup_in_bounds ⟨0, 1⟩ true true false (-5) (by decide) (by decide)

/-- **C10.** `setDefaultWindowLevel` sets both the default and the current
window/level to its argument, and `resetWindowLevel` copies the stored
default into the current window/level while leaving every other field —
pixel data, dimensions, photometric interpretation, bits per sample,
signedness, rescale slope/intercept, metadata, and the default itself —
unchanged. -/
theorem windowLevel_default_reset_frame (img : CDicomImage)
    (wl : DicomViewer.SWindowLevel) :
    (img.setDefaultWindowLevel wl).defaultWindowLevel = wl ∧
    (img.setDefaultWindowLevel wl).windowLevel = wl ∧
    img.resetWindowLevel.windowLevel = img.defaultWindowLevel ∧
    img.resetWindowLevel.pixelData = img.pixelData ∧
    img.resetWindowLevel.dimensions = img.dimensions ∧
    img.resetWindowLevel.photometricInterpretation = img.photometricInterpretation ∧
    img.resetWindowLevel.bitsPerSample = img.bitsPerSample ∧
    img.resetWindowLevel.pixelSigned = img.pixelSigned ∧
    img.resetWindowLevel.rescaleSlope = img.rescaleSlope ∧
    img.resetWindowLevel.rescaleIntercept = img.rescaleIntercept ∧
    img.resetWindowLevel.metadata = img.metadata ∧
    img.resetWindowLevel.defaultWindowLevel = img.defaultWindowLevel :=
  ⟨rfl, rfl, rfl, rfl, rfl, rfl, rfl, rfl, rfl, rfl, rfl, rfl⟩

/-- **C2 counterexample.** At the claim's own instance — domain `[0,65535]`,
`center = 32768`, `width = 65536` — the window's upper bound is `65536`,
which lies strictly above the domain maximum `65535`, so the top entry is
produced by the truncating linear branch: `⌊65535 · 255/65536⌋ = 254`, not
the claimed `255`. -/
theorem lut_boundary_scenario_counterexample :
    (buildWindowLevelLut ⟨32768, 65536⟩ 0 65535 false).getD 65535 0 = 254 ∧
    (buildWindowLevelLut ⟨32768, 65536⟩ 0 65535 false).getD 65535 0 ≠ 255 := by
  have h : (buildWindowLevelLut ⟨32768, 65536⟩ 0 65535 false).getD 65535 0 = 254 := by
    rw [buildWindowLevelLut_getD ⟨32768, 65536⟩ 0 65535 false (by decide)
      (by norm_num) 65535 (by decide)]
    norm_num [lutEntry]
    decide
  exact ⟨h, by rw [h]; decide⟩

/-- **C2 (amended).** Boundary saturation holds whenever the window lies
inside the domain: for `width > 0` with `domainMin ≤ center - width/2` and
`center + width/2 ≤ domainMax`, `lut[domainMin] = 0` and
`lut[domainMax] = 255` before inversion, and the two values are swapped
when `invert` is set. In the 16-bit unsigned scenario `center = 32768`,
`width = 65536` the window's upper bound exceeds the domain, giving
`lut[0] = 0`, `lut[65535] = 254` (not `255`), and `lut[32768] = 127`
(within `±1` of `128` due to truncation). -/
theorem lut_boundary_saturation (wl : DicomViewer.SWindowLevel)
    (minValue maxValue : ℤ) (h : minValue ≤ maxValue) (hw : 0 < wl.width)
    (hlo : (minValue : ℚ) ≤ wl.center - wl.width / 2)
    (hhi : wl.center + wl.width / 2 ≤ (maxValue : ℚ)) :
    ((buildWindowLevelLut wl minValue maxValue false).getD 0 0 = 0 ∧
     (buildWindowLevelLut wl minValue maxValue false).getD
        (maxValue - minValue).toNat 0 = 255 ∧
     (buildWindowLevelLut wl minValue maxValue true).getD 0 0 = 255 ∧
     (buildWindowLevelLut wl minValue maxValue true).getD
        (maxValue - minValue).toNat 0 = 0) ∧
    ((buildWindowLevelLut ⟨32768, 65536⟩ 0 65535 false).getD 0 0 = 0 ∧
     (buildWindowLevelLut ⟨32768, 65536⟩ 0 65535 false).getD 32768 0 = 127 ∧
     (buildWindowLevelLut ⟨32768, 65536⟩ 0 65535 false).getD 65535 0 = 254) := by
  have e0f := buildWindowLevelLut_getD wl minValue maxValue false h hw 0 (by omega)
  have e0t := buildWindowLevelLut_getD wl minValue maxValue true h hw 0 (by omega)
  have e1f := buildWindowLevelLut_getD wl minValue maxValue false h hw
    (maxValue - minValue).toNat (by omega)
  have e1t := buildWindowLevelLut_getD wl minValue maxValue true h hw
    (maxValue - minValue).toNat (by omega)
  rw [cast_add_toNat_sub minValue maxValue h] at e1f e1t
  simp only [Nat.cast_zero, add_zero] at e0f e0t
  have hbase0 : lutEntry wl false (minValue : ℚ) = 0 := by
    unfold lutEntry
    simp [hlo]
  have hbase1 : lutEntry wl false (maxValue : ℚ) = 255 := by
    unfold lutEntry
    have h1 : ¬ (maxValue : ℚ) ≤ wl.center - wl.width / 2 := by
      intro hc
      linarith
    simp [h1, hhi]
  have hs := buildWindowLevelLut_getD ⟨32768, 65536⟩ 0 65535 false (by decide)
    (by norm_num)
  refine ⟨⟨?_, ?_, ?_, ?_⟩, ?_, ?_, ?_⟩
  · rw [e0f, hbase0]
  · rw [e1f, hbase1]
  · rw [e0t, lutEntry_true, hbase0]
  · rw [e1t, lutEntry_true, hbase1]
  · rw [hs 0 (by decide)]
    norm_num [lutEntry]
  · rw [hs 32768 (by decide)]
    norm_num [lutEntry]
    decide
  · rw [hs 65535 (by decide)]
    norm_num [lutEntry]
    decide

/-- Witness for C2 (amended) at the 8-bit domain with `center = 128`,
`width = 100`, whose window `[78, 178]` lies inside `[0, 255]`. -/
theorem lut_boundary_saturation_witness :
    (((buildWindowLevelLut ⟨128, 100⟩ 0 255 false).getD 0 0 = 0 ∧
      (buildWindowLevelLut ⟨128, 100⟩ 0 255 false).getD
        ((255 : ℤ) - 0).toNat 0 = 255 ∧
      (buildWindowLevelLut ⟨128, 100⟩ 0 255 true).getD 0 0 = 255 ∧
      (buildWindowLevelLut ⟨128, 100⟩ 0 255 true).getD
        ((255 : ℤ) - 0).toNat 0 = 0) ∧
     ((buildWindowLevelLut ⟨32768, 65536⟩ 0 65535 false).getD 0 0 = 0 ∧
      (buildWindowLevelLut ⟨32768, 65536⟩ 0 65535 false).getD 32768 0 = 127 ∧
      (buildWindowLevelLut ⟨32768, 65536⟩ 0 65535 false).getD 65535 0 = 254)) :=
  lut_boundary_saturation ⟨128, 100⟩ 0 255 (by decide) (by norm_num)
    (by norm_num) (by norm_num)

/-- **C3 counterexample.** For the 8-bit Monochrome1 LUT with
`center = 128`, `width = 256`, the raw value `255` lies strictly below the
window's upper bound `256`, so before inversion it maps to
`⌊255 · 255/256⌋ = 254` and after inversion to `1` — not to `0` as claimed. -/
theorem mono1_scenario_counterexample :
    (buildWindowLevelLut ⟨128, 256⟩ 0 255 true).getD 255 0 = 1 ∧
    (buildWindowLevelLut ⟨128, 256⟩ 0 255 true).getD 255 0 ≠ 0 := by
  have h : (buildWindowLevelLut ⟨128, 256⟩ 0 255 true).getD 255 0 = 1 := by
    rw [buildWindowLevelLut_getD ⟨128, 256⟩ 0 255 true (by decide)
      (by norm_num) 255 (by decide)]
    norm_num [lutEntry]
    decide
  exact ⟨h, by rw [h]; decide⟩

/-- **C3 (amended).** Converting an 8-bit Monochrome1 image holding the raw
samples `0` and `255` with `center = 128`, `width = 256` (hence
`invert = true`) yields the display values `255` for raw `0` and `1` — not
`0` — for raw `255`: raw `255` is still inside the window (`255 < 256`), so
it maps to `254` before the inversion and to `255 - 254 = 1` after it. -/
theorem mono1_scenario_display :
    toQImage {} mono1Sample ⟨128, 256⟩ =
      some ⟨2, 1, QImageFormat.Grayscale8, [255, 1]⟩ := by
  have hl := buildWindowLevelLut_getD ⟨128, 256⟩ 0 255 true (by decide) (by norm_num)
  have h0 : (buildWindowLevelLut ⟨128, 256⟩ 0 255 true).getD 0 0 = 255 := by
    rw [hl 0 (by decide)]
    norm_num [lutEntry]
  have h255 : (buildWindowLevelLut ⟨128, 256⟩ 0 255 true).getD 255 0 = 1 := by
    rw [hl 255 (by decide)]
    norm_num [lutEntry]
    decide
  rw [List.getD_eq_getElem?_getD] at h0 h255
  simp [toQImage, convertMonochrome, mono1Sample, CDicomImage.isValid,
    CDicomImage.hasPixelData, monoMinValue, monoMaxValue, monoExpectedSize,
    sampleAt, List.range_succ, h0, h255]

theorem convertMonochrome_none_iff (pal : CColorPalette) (img : CDicomImage)
    (wl : DicomViewer.SWindowLevel) (hne : img.pixelData.isEmpty = false) :
    (convertMonochrome pal img wl = none) ↔
      img.pixelData.length < monoExpectedSize img := by
  unfold convertMonochrome
  rw [if_neg (by simp [hne])]
  by_cases hsz : img.pixelData.length < monoExpectedSize img
  · simp [hsz]
  · rw [if_neg hsz]
    simp only [hsz, iff_false]
    by_cases hp : (pal.type != DicomViewer.EPaletteType.Grayscale) = true
    · simp [hp]
    · simp [hp]

theorem convertRgb_none_iff (img : CDicomImage)
    (hne : img.pixelData.isEmpty = false) :
    (convertRgb img = none) ↔
      img.pixelData.length < rgbExpectedSize img := by
  unfold convertRgb
  rw [if_neg (by simp [hne])]
  by_cases hsz : img.pixelData.length < rgbExpectedSize img <;>
    simp [hsz]

/-- **C6.** The snapshot conversion `toQImage` — a total function in this
model, so it never throws — returns the null image exactly when the source
is invalid (empty pixel buffer, zero width or height, `Unknown`
photometric kind), or its photometric kind is `Unknown` or `PaletteColor`,
or its byte length is smaller than the size implied by its dimensions and
bit depth; on every other (valid, sufficiently sized,
Monochrome1/Monochrome2/Rgb) image it returns a non-null result. -/
theorem toQImage_none_iff (pal : CColorPalette) (img : CDicomImage)
    (wl : DicomViewer.SWindowLevel) :
    toQImage pal img wl = none ↔
      (img.isValid = false ∨
        img.photometricInterpretation =
          DicomViewer.EPhotometricInterpretation.Unknown ∨
        img.photometricInterpretation =
          DicomViewer.EPhotometricInterpretation.PaletteColor ∨
        img.pixelData.length < requiredBytes img) := by
  by_cases hv : img.isValid
  · have hvf : ¬ img.isValid = false := by simp [hv]
    have h' := hv
    unfold CDicomImage.isValid CDicomImage.hasPixelData at h'
    simp only [Bool.and_eq_true, decide_eq_true_eq, Bool.not_eq_true'] at h'
    obtain ⟨⟨⟨hne, hw0⟩, hh0⟩, hpi⟩ := h'
    unfold toQImage
    rw [if_neg (by simp [hv])]
    unfold requiredBytes
    cases hp : img.photometricInterpretation
    · rw [convertMonochrome_none_iff pal img wl hne]
      simp [hvf, hp]
    · rw [convertMonochrome_none_iff pal img wl hne]
      simp [hvf, hp]
    · rw [convertRgb_none_iff img hne]
      simp [hvf, hp]
    · simp [hvf, hp]
    · exact absurd hp hpi
  · have hvf : img.isValid = false := by
      cases h : img.isValid
      · rfl
      · exact absurd h hv
    unfold toQImage
    rw [if_pos (by simp [hvf])]
    simp [hvf]

theorem flatMap_range_drop_take (l : List ℕ) (rows rowBytes : ℕ) :
    (List.range rows).flatMap (fun y => (l.drop (y * rowBytes)).take rowBytes) =
      l.take (rows * rowBytes) := by
  induction rows with
  | zero => simp
  | succ n ih =>
      rw [List.range_succ, List.flatMap_append, ih, List.flatMap_cons,
        List.flatMap_nil, List.append_nil,
        show (n + 1) * rowBytes = n * rowBytes + rowBytes by ring,
        List.take_add]

/-- **C7.** For a valid RGB image whose buffer holds at least
`width*height*3` bytes, the snapshot conversion is a verbatim byte-for-byte
copy of the first `width*height*3` source bytes in `RGB888` format — no
window/level LUT and no palette touches it — and the output is identical
for any two choices of the window/level and palette arguments. -/
theorem toQImage_rgb_verbatim (pal pal' : CColorPalette) (img : CDicomImage)
    (wl wl' : DicomViewer.SWindowLevel)
    (hpi : img.photometricInterpretation = DicomViewer.EPhotometricInterpretation.Rgb)
    (hval : img.isValid = true)
    (hsz : img.dimensions.width * img.dimensions.height * 3 ≤ img.pixelData.length) :
    toQImage pal img wl =
      some ⟨img.dimensions.width, img.dimensions.height, QImageFormat.RGB888,
        img.pixelData.take (img.dimensions.width * img.dimensions.height * 3)⟩ ∧
    toQImage pal img wl = toQImage pal' img wl' := by
  have hne : img.pixelData.isEmpty = false := by
    have := hval
    unfold CDicomImage.isValid CDicomImage.hasPixelData at this
    simp only [Bool.and_eq_true, decide_eq_true_eq, Bool.not_eq_true'] at this
    exact this.1.1.1
  have key : ∀ (p : CColorPalette) (w : DicomViewer.SWindowLevel),
      toQImage p img w =
        some ⟨img.dimensions.width, img.dimensions.height, QImageFormat.RGB888,
          img.pixelData.take (img.dimensions.width * img.dimensions.height * 3)⟩ := by
    intro p w
    unfold toQImage
    rw [if_neg (by simp [hval]), hpi]
    unfold convertRgb
    rw [if_neg (by simp [hne]),
      if_neg (by simp only [rgbExpectedSize]; omega)]
    simp only [flatMap_range_drop_take]
    congr 1
    congr 1
    ring_nf
  exact ⟨key pal wl, (key pal wl).trans (key pal' wl').symm⟩

/-- Witness for C7: the concrete 1×2 RGB sample image, converted under two
different window/levels and palettes. -/
theorem toQImage_rgb_verbatim_witness :
    (toQImage {} rgbSample ⟨0, 1⟩ =
      some ⟨rgbSample.dimensions.width, rgbSample.dimensions.height,
        QImageFormat.RGB888,
        rgbSample.pixelData.take
          (rgbSample.dimensions.width * rgbSample.dimensions.height * 3)⟩) ∧
    toQImage {} rgbSample ⟨0, 1⟩ =
      toQImage { type := DicomViewer.EPaletteType.Hot, mapRgb := fun g => (g, 0, 0) }
        rgbSample ⟨300, 42⟩ :=
  toQImage_rgb_verbatim {}
    { type := DicomViewer.EPaletteType.Hot, mapRgb := fun g => (g, 0, 0) }
    rgbSample ⟨0, 1⟩ ⟨300, 42⟩ rfl (by decide) (by decide)
